import Mathlib

/-!
Verification of the file-based IPC mechanism of `@pup/common` (`src/ipc.ts`).

The development is a shallow embedding of the `FileIPC` class: the filesystem
is modelled as an explicit state (`FsState`) holding the mailbox file's decoded
content plus fault-injection flags for the primitive operations, and each
method of the class becomes a pure state-passing function translated line by
line from the TypeScript source.

The JavaScript builtins `parseInt`, `Date.parse`/`new Date(...).getTime()` and
`Date.prototype.toISOString` are external runtime primitives, not code of this
repository; the embedding is parameterised over them (`parseIntF`, `dateParseF`,
`toIsoF`).  What the embedding does bake in is the JS-semantic fact that
`parseInt` and `Date.parse` are total: applied to any value decoded from JSON
they return a number (possibly `NaN`) and never throw, which is why the
corresponding `try`/`catch` blocks of the source are unreachable.
-/

/-- A JavaScript number as produced by `parseInt` or `Date.parse`: either a
genuine (integral) number or `NaN`. -/
inductive JsNum where
  | num (n : Int)
  | nan
deriving DecidableEq, Repr

/-- JS comparison `x >= bound` where `x` may be `NaN`: any comparison with
`NaN` is false. -/
def JsNum.geInt (x : JsNum) (bound : Int) : Bool :=
  match x with
  | .num n => decide (bound ≤ n)
  | .nan => false

/-- The untrusted `data` field of an entry decoded from the mailbox file's
JSON: it may be absent (`undefined`), `null`, or a value of any JSON type.
Numbers and booleans stand in for every non-string JSON value. -/
inductive JsData where
  | missing
  | nullVal
  | str (s : String)
  | numVal (n : Int)
  | boolVal (b : Bool)
deriving DecidableEq, Repr

/-- JS falsiness of a `data` field, as tested by `!messageObj.data`
(ipc.ts line 170): `undefined`, `null`, the empty string, `0` and `false`
are falsy. -/
def JsData.falsy : JsData → Bool
  | .missing => true
  | .nullVal => true
  | .str s => decide (s.length = 0)
  | .numVal n => decide (n = 0)
  | .boolVal b => !b

/-- One element of the `data` array of the mailbox file (spec: RawEntry).
The `pid` and `sent` fields are kept as the strings that `parseInt` resp.
`Date.parse` will be applied to (a numeric JSON value is represented by its
decimal string coercion); `none` models an absent field, whose coercion
parses to `NaN`. -/
structure RawEntry where
  pid : Option String
  sent : Option String
  data : JsData
deriving DecidableEq, Repr

/-- The `IpcValidatedMessage` interface (ipc.ts lines 27-32).  `pid` and
`sent` are `number | null` resp. `Date | null` in the source; a `Date` is
represented by its time value, which is `NaN` for an Invalid Date. -/
structure IpcValidatedMessage where
  pid : Option JsNum
  sent : Option JsNum
  data : Option String
  errors : List String
deriving DecidableEq, Repr

/-- Application of a JS parse builtin to a possibly-absent field: coercing
`undefined` yields a string no timestamp or integer parse accepts, so the
result is `NaN`. -/
def jsField (f : String → JsNum) : Option String → JsNum
  | some s => f s
  | none => .nan

/-- The staleness test of ipc.ts lines 167-168:
`validatedSent !== null && validatedSent.getTime() >= Date.now() - staleMessageLimitMs`.
An Invalid Date has time value `NaN`, which compares false. -/
def jsGeTime (sent : Option JsNum) (bound : Int) : Bool :=
  match sent with
  | some t => t.geInt bound
  | none => false

namespace FileIPC

/-- The per-entry validation loop body of `extractMessages`
(ipc.ts lines 145-188).

`validatedPid = parseInt(messageObj.pid)` (line 153): `parseInt` returns
`NaN` on failure and never throws on a JSON-decoded argument, so the `catch`
pushing `"Invalid data received: pid"` (line 155) is unreachable and
`validatedPid` is never left `null`.  Likewise
`validatedSent = new Date(Date.parse(messageObj.sent))` (line 160) never
throws — an unparseable string gives an Invalid Date — so the `catch`
pushing `"Invalid data received: sent"` (line 162) is unreachable.

The `data` validation (lines 165-181) runs only when the staleness test
passes; otherwise `"Invalid data received: stale"` is pushed. -/
def validateEntry (parseIntF dateParseF : String → JsNum)
    (nowMs staleMessageLimitMs : Int) (maxDataLength : Nat)
    (messageObj : RawEntry) : IpcValidatedMessage :=
  let validatedPid : Option JsNum := some (jsField parseIntF messageObj.pid)
  let validatedSent : Option JsNum := some (jsField dateParseF messageObj.sent)
  let dataErrors : Option String × List String :=
    if jsGeTime validatedSent (nowMs - staleMessageLimitMs) then
      if messageObj.data.falsy then
        (none, ["Invalid data received: missing"])
      else
        match messageObj.data with
        | .str s =>
          if maxDataLength ≤ s.length then
            (none, ["Invalid data received: too long"])
          else
            (some s, [])
        | _ => (none, ["Invalid data received: not string"])
    else
      (none, ["Invalid data received: stale"])
  { pid := validatedPid
    sent := validatedSent
    data := dataErrors.1
    errors := dataErrors.2 }

/-- The decoded content of the mailbox file.  `entries es` is content whose
UTF-8 text parses as JSON to an object with an iterable `data` array of
entries; `emptyContent` is a zero-byte file, on which `JSON.parse("")`
throws a `SyntaxError`; `malformed` is any other content on which
`JSON.parse` throws or whose decoded value has no iterable/array `data`
property (so that using `messages.data` throws). -/
inductive FileContent where
  | entries (es : List RawEntry)
  | emptyContent
  | malformed
deriving DecidableEq, Repr

/-- The filesystem as seen through the `@cross/fs` primitives the class
calls: the mailbox file's content (`none` = the file does not exist) plus
fault-injection flags making the corresponding primitive reject. -/
structure FsState where
  file : Option FileContent
  mkdirFails : Bool
  readFails : Bool
  unlinkFails : Bool
  writeFails : Bool
deriving DecidableEq, Repr

/-- The errors `extractMessages` can throw (ipc.ts lines 125, 131-133, 192):
read failure, delete failure, and invalid content. -/
inductive ExtractError where
  | readError
  | deleteError
  | formatError
deriving DecidableEq, Repr

/-- `extractMessages` (ipc.ts lines 119-197), as a state-passing function.

If the file does not exist, return `[]` (line 195).  Otherwise read it
(failure throws, line 125) and unlink it (failure throws, lines 131-133)
— the unlink happens before any parsing or validation.  `readFile` returned
a `Uint8Array`, which as a JS object is truthy even when it holds zero
bytes, so the `if (fileContent)` test (line 140) always takes the
`JSON.parse` branch and the `messages = { data: [] }` branch (line 143) is
unreachable: zero-byte content makes `JSON.parse` throw, caught at line 191
as `Invalid content`.  Well-formed content is validated entry by entry with
`validateEntry`. -/
def extractMessages (parseIntF dateParseF : String → JsNum)
    (staleMessageLimitMs : Int) (maxDataLength : Nat) (nowMs : Int)
    (fs : FsState) : FsState × Except ExtractError (List IpcValidatedMessage) :=
  match fs.file with
  | none => (fs, .ok [])
  | some content =>
    if fs.readFails then
      (fs, .error .readError)
    else if fs.unlinkFails then
      (fs, .error .deleteError)
    else
      let fs2 : FsState := { fs with file := none }
      match content with
      | .entries es =>
        (fs2, .ok (es.map
          (validateEntry parseIntF dateParseF nowMs staleMessageLimitMs maxDataLength)))
      | .emptyContent => (fs2, .error .formatError)
      | .malformed => (fs2, .error .formatError)

/-- Outcome of `sendData` when it returns normally: the message was written,
or a failure was caught by the outer `catch` and reported via
`console.error` (ipc.ts lines 230-232), the message being lost. -/
inductive SendResult where
  | sent
  | loggedError
deriving DecidableEq, Repr

/-- The entry `sendData` appends (ipc.ts lines 221-225):
`{ pid: pid(), data, sent: new Date().toISOString() }`.  The numeric `pid`
is represented by its decimal string coercion, which is what a later
`parseInt` receives. -/
def mkSentEntry (toIsoF : Int → String) (pidValue nowMs : Int)
    (data : String) : RawEntry :=
  { pid := some (toString pidValue)
    sent := some (toIsoF nowMs)
    data := .str data }

/-- `sendData` (ipc.ts lines 206-233).

`mkdir` (line 208) is executed before, and outside of, the `try`/`catch`: a
directory-creation failure propagates to the caller as an exception
(`Except.error`).  Inside the `try`, the read failure is swallowed by the
inner `catch` (line 214), leaving `fileContent` undefined and the mailbox
treated as empty; a defined `fileContent` is a truthy `Uint8Array`, so
empty or malformed content reaches `JSON.parse`, whose exception the outer
`catch` logs.  A write failure is likewise caught and logged, the file
left unchanged. -/
def sendData (toIsoF : Int → String) (pidValue nowMs : Int) (data : String)
    (fs : FsState) : Except Unit (FsState × SendResult) :=
  if fs.mkdirFails then
    .error ()
  else
    let fileContent : Option FileContent :=
      if fs.readFails then none else fs.file
    match fileContent with
    | none =>
      if fs.writeFails then
        .ok (fs, .loggedError)
      else
        .ok ({ fs with
          file := some (.entries [mkSentEntry toIsoF pidValue nowMs data]) }, .sent)
    | some (.entries es) =>
      if fs.writeFails then
        .ok (fs, .loggedError)
      else
        .ok ({ fs with
          file := some (.entries (es ++ [mkSentEntry toIsoF pidValue nowMs data])) }, .sent)
    | some .emptyContent => .ok (fs, .loggedError)
    | some .malformed => .ok (fs, .loggedError)

/-- Iterate `sendData` over a list of `(sendTimeMs, data)` pairs.  A
propagated `mkdir` exception stops the iteration (the remaining sends are
not performed). -/
def sendAll (toIsoF : Int → String) (pidValue : Int)
    (sends : List (Int × String)) (fs : FsState) : FsState :=
  match sends with
  | [] => fs
  | (t, d) :: rest =>
    match sendData toIsoF pidValue t d fs with
    | .ok (fs2, _) => sendAll toIsoF pidValue rest fs2
    | .error _ => fs

/-- The mutable state of a `FileIPC` instance: the filesystem it acts on,
the `messageQueue` of extracted batches (line 41) and the `aborted` flag
(line 42). -/
structure IpcState where
  fs : FsState
  messageQueue : List (List IpcValidatedMessage)
  aborted : Bool
deriving DecidableEq, Repr

/-- The `sendData` method on a handle.  The method body (ipc.ts lines
206-233) touches only the filesystem: it contains no check of the
`aborted` flag set by `close`. -/
def sendOnHandle (toIsoF : Int → String) (pidValue nowMs : Int) (data : String)
    (st : IpcState) : Except Unit (IpcState × SendResult) :=
  match sendData toIsoF pidValue nowMs data st.fs with
  | .ok (fs2, r) => .ok ({ st with fs := fs2 }, r)
  | .error e => .error e

/-- `close` (ipc.ts lines 255-274): set `aborted`, stop the watcher, and
unless `leaveFile` is set try to unlink the mailbox file, ignoring
failure. -/
def close (leaveFile : Bool) (st : IpcState) : IpcState :=
  let st1 : IpcState := { st with aborted := true }
  if leaveFile then st1
  else if st1.fs.unlinkFails then st1
  else { st1 with fs := { st1.fs with file := none } }

/-- The guarded push of a batch onto the `messageQueue` performed by
`startWatching` (ipc.ts lines 77-79 and 101-103): the batch is enqueued
only when `messages.length > 0`. -/
def pushIfNonEmpty (queue : List (List IpcValidatedMessage))
    (messages : List IpcValidatedMessage) : List (List IpcValidatedMessage) :=
  if messages.length > 0 then queue ++ [messages] else queue

/-- What one iteration of the `receiveData` loop does (ipc.ts lines
238-249): terminate if aborted; otherwise yield the shifted head of the
queue, or wait `debounceTimeMs` when the queue is empty. -/
inductive ReceiveStep where
  | yielded (messages : List IpcValidatedMessage)
  | waited
  | terminated
deriving DecidableEq, Repr

/-- One iteration of the `receiveData` generator loop (ipc.ts lines
238-249).  `shift()` on a non-empty queue returns its defined head (the
`if (messages)` test at line 241 succeeds), which is yielded. -/
def receiveStep (st : IpcState) : ReceiveStep × IpcState :=
  if st.aborted then
    (.terminated, st)
  else
    match st.messageQueue with
    | [] => (.waited, st)
    | msgs :: rest => (.yielded msgs, { st with messageQueue := rest })

/-- The queues reachable in a `FileIPC` instance: the queue starts empty
(line 41) and is modified only by the watcher's guarded pushes
(`pushIfNonEmpty`, lines 77-79 and 101-103) and the consumer's `shift()`
(line 240). -/
inductive QueueReachable : List (List IpcValidatedMessage) → Prop where
  | init : QueueReachable []
  | push (q : List (List IpcValidatedMessage)) (msgs : List IpcValidatedMessage) :
      QueueReachable q → QueueReachable (pushIfNonEmpty q msgs)
  | shift (b : List IpcValidatedMessage) (q : List (List IpcValidatedMessage)) :
      QueueReachable (b :: q) → QueueReachable q

/-- A filesystem event as delivered by the directory watcher. -/
structure WatchEvent where
  kind : String
  paths : List String
deriving DecidableEq, Repr

/-- One call of a `@std/async` debounced function: the instance's own
pending timeout (if any) is cleared and the callback is rescheduled
`debounceTimeMs` after the call.  Returns the instance's new firing
time. -/
def debounceInvoke (pending : Option Int) (nowMs debounceTimeMs : Int) :
    Option Int :=
  match pending with
  | _ => some (nowMs + debounceTimeMs)

/-- The watch-loop body of `startWatching` (ipc.ts lines 89-107) applied to
a sequence of timestamped events: for each event whose kind is `modify`
and whose paths include the mailbox file (lines 94-97), the handler
evaluates `debounce(async () => ..., this.debounceTimeMs)()` (lines
98-105) — it builds a NEW debounced function and invokes it once, so every
matching event owns a fresh, independent timer that no later event ever
clears.  The result is the list of times at which an `extractMessages`
callback fires. -/
def scheduledExtractions (targetPath : String) (debounceTimeMs : Int)
    (events : List (Int × WatchEvent)) : List Int :=
  events.filterMap fun te =>
    if te.2.kind == "modify" && te.2.paths.contains targetPath then
      debounceInvoke none te.1 debounceTimeMs
    else
      none

/-- The watcher the spec describes, for comparison ("implement as a
restartable single-shot timer keyed by target file identity; each
qualifying event cancels and reschedules the timer"): one shared timer is
rescheduled by every matching event, so over a burst only the last
matching event's timer fires, `debounceTimeMs` after it. -/
def specDebouncedExtractions (targetPath : String) (debounceTimeMs : Int)
    (events : List (Int × WatchEvent)) : List Int :=
  let matching := events.filterMap fun te =>
    if te.2.kind == "modify" && te.2.paths.contains targetPath then
      some te.1
    else
      none
  match matching.getLast? with
  | none => []
  | some t => [t + debounceTimeMs]

end FileIPC

/-- A sample validated message, used to instantiate theorems at concrete
inputs. -/
def sampleMsg : IpcValidatedMessage :=
  { pid := some (.num 1), sent := some (.num 0), data := some "hello", errors := [] }

/-- A fault-free filesystem in which the mailbox file does not exist. -/
def fs0 : FileIPC.FsState :=
  { file := none, mkdirFails := false, readFails := false,
    unlinkFails := false, writeFails := false }

/-- A fault-free filesystem whose mailbox file holds malformed content. -/
def fsMal : FileIPC.FsState :=
  { file := some .malformed, mkdirFails := false, readFails := false,
    unlinkFails := false, writeFails := false }

/-- A fresh handle over `fs0`: empty queue, not aborted. -/
def ipc0 : FileIPC.IpcState :=
  { fs := fs0, messageQueue := [], aborted := false }

/-- A raw entry whose `data` string has length exactly 1024 and whose
`sent` field no timestamp parse accepts. -/
def longEntry : RawEntry :=
  { pid := some "7", sent := some "garbage",
    data := .str (String.mk (List.replicate 1024 'x')) }

/-- Claim C1: on a burst of two `modify` events on the mailbox file 50 ms
apart with `debounceTimeMs = 100`, the loop body of `startWatching`
schedules TWO independent extraction callbacks (firing at 100 ms and
150 ms), because `debounce(cb, ms)()` builds a fresh debounced function for
every event; the restartable single-shot timer the spec describes would
fire exactly once, at 150 ms. -/
theorem debounce_burst_schedules_two_extractions :
    FileIPC.scheduledExtractions "/tmp/pup/ipc" 100
        [(0, { kind := "modify", paths := ["/tmp/pup/ipc"] }),
         (50, { kind := "modify", paths := ["/tmp/pup/ipc"] })] = [100, 150] ∧
    FileIPC.specDebouncedExtractions "/tmp/pup/ipc" 100
        [(0, { kind := "modify", paths := ["/tmp/pup/ipc"] }),
         (50, { kind := "modify", paths := ["/tmp/pup/ipc"] })] = [150] := by
  constructor <;> rfl

/-- Claim C2: evaluating the validation loop on an entry whose `pid` does
not parse (`parseInt` returns `NaN`): with a fresh, valid `sent`, the
result has `pid = NaN` (not absent) and NO error recorded at all; with an
unparseable `sent` as well, the result has `sent = NaN` (an Invalid Date,
not absent) and the only error is `stale` — neither
`"Invalid data received: pid"` nor `"Invalid data received: sent"` can ever
be produced, their pushes sitting in unreachable `catch` blocks. -/
theorem invalid_pid_sent_yield_nan_without_errors :
    (FileIPC.validateEntry (fun _ => .nan) (fun _ => .num 1000) 1000 30000 1024
        { pid := some "abc", sent := some "2024-04-29T00:00:01.000Z", data := .str "hi" } =
      { pid := some .nan, sent := some (.num 1000), data := some "hi", errors := [] }) ∧
    (FileIPC.validateEntry (fun _ => .nan) (fun _ => .nan) 1000 30000 1024
        { pid := some "abc", sent := some "not a date", data := .str "hi" } =
      { pid := some .nan, sent := some .nan, data := none,
        errors := ["Invalid data received: stale"] }) := by
  constructor <;> rfl

/-- Claim C3, counterexample: the empty string has length 0 < 1024 and is
sent fresh with well-formed `pid` and `sent`, yet validation leaves `data`
absent and records `"Invalid data received: missing"`, because the JS test
`!messageObj.data` treats the empty string as falsy. -/
theorem empty_data_rejected_as_missing :
    ¬ ((FileIPC.validateEntry (fun _ => .num 123) (fun _ => .num 1000) 1000 30000 1024
          { pid := some "123", sent := some "1000", data := .str "" }).data = some "" ∧
       (FileIPC.validateEntry (fun _ => .num 123) (fun _ => .num 1000) 1000 30000 1024
          { pid := some "123", sent := some "1000", data := .str "" }).errors = []) := by
  decide

/-- Claim C3 as amended: for every NON-EMPTY data string `d` of length
strictly less than 1024, sent at time `T` with a `sent` timestamp parsing
back to `T`, validation at any instant `Tp` with `T ≤ Tp ≤ T + staleLimit`
yields `data = d` and no errors (the `pid` field is irrelevant: no pid
error is ever recorded). -/
theorem fresh_nonempty_data_validates_cleanly
    (parseIntF dateParseF : String → JsNum) (toIsoF : Int → String)
    (pidValue T Tp stale : Int) (d : String)
    (hiso : dateParseF (toIsoF T) = .num T)
    (h1 : T ≤ Tp) (h2 : Tp ≤ T + stale)
    (hne : d.length ≠ 0) (hlen : d.length < 1024) :
    (FileIPC.validateEntry parseIntF dateParseF Tp stale 1024
        (FileIPC.mkSentEntry toIsoF pidValue T d)).data = some d ∧
    (FileIPC.validateEntry parseIntF dateParseF Tp stale 1024
        (FileIPC.mkSentEntry toIsoF pidValue T d)).errors = [] := by
  have hge : jsGeTime (some (jsField dateParseF (some (toIsoF T)))) (Tp - stale) = true := by
    simp [jsField, hiso, jsGeTime, JsNum.geInt]
    omega
  have hfalsy : (JsData.str d).falsy = false := by
    simp [JsData.falsy, hne]
  have hlen2 : ¬ ((1024 : Nat) ≤ d.length) := by omega
  constructor <;>
    simp [FileIPC.validateEntry, FileIPC.mkSentEntry, hge, hfalsy, hlen2]

/-- Witness for the amended claim C3 at a concrete input. -/
theorem fresh_nonempty_data_validates_cleanly_witness :
    (FileIPC.validateEntry (fun _ => .nan) (fun _ => .num 400) 500 30000 1024
        (FileIPC.mkSentEntry (fun _ => "T") 42 400 "hello")).data = some "hello" ∧
    (FileIPC.validateEntry (fun _ => .nan) (fun _ => .num 400) 500 30000 1024
        (FileIPC.mkSentEntry (fun _ => "T") 42 400 "hello")).errors = [] :=
  fresh_nonempty_data_validates_cleanly (fun _ => .nan) (fun _ => .num 400)
    (fun _ => "T") 42 400 500 30000 "hello" rfl (by decide) (by decide)
    (by decide) (by decide)

/-- Claim C4, counterexample: an entry whose data string has length exactly
1024 but whose `sent` field does not parse is marked `stale` only — the
length check is never reached, so `"Invalid data received: too long"` is
NOT among its errors, refuting "regardless of the other fields of the
entry". -/
theorem long_data_with_unparseable_sent_marked_stale_only :
    ¬ ("Invalid data received: too long" ∈
        (FileIPC.validateEntry (fun _ => .num 7) (fun _ => .nan) 1000 30000 1024
          longEntry).errors) := by
  decide

/-- Claim C4 as amended: for every entry whose data string has length at
least 1024, validation leaves `data` absent; and whenever the staleness
test additionally passes (`sent` parses to a time within the stale
window), `"Invalid data received: too long"` is among the errors. -/
theorem long_data_yields_absent_and_too_long_when_fresh
    (parseIntF dateParseF : String → JsNum) (nowMs stale : Int)
    (e : RawEntry) (d : String)
    (hd : e.data = .str d) (hlen : 1024 ≤ d.length) :
    (FileIPC.validateEntry parseIntF dateParseF nowMs stale 1024 e).data = none ∧
    (jsGeTime (some (jsField dateParseF e.sent)) (nowMs - stale) = true →
      "Invalid data received: too long" ∈
        (FileIPC.validateEntry parseIntF dateParseF nowMs stale 1024 e).errors) := by
  have hfalsy : (JsData.str d).falsy = false := by
    simp [JsData.falsy]
    omega
  rcases hge : jsGeTime (some (jsField dateParseF e.sent)) (nowMs - stale) with _ | _
  · refine ⟨?_, fun h => by simp [hge] at h⟩
    simp [FileIPC.validateEntry, hd, hge]
  · refine ⟨?_, fun _ => ?_⟩ <;>
      simp [FileIPC.validateEntry, hd, hge, hfalsy, hlen]

set_option maxRecDepth 8192 in
/-- Witness for the amended claim C4 at a concrete input (the 1024-long
data string of `longEntry` with a parseable, fresh `sent`). -/
theorem long_data_yields_absent_and_too_long_when_fresh_witness :
    (FileIPC.validateEntry (fun _ => .num 7) (fun _ => .num 0) 0 30000 1024
        longEntry).data = none ∧
    "Invalid data received: too long" ∈
      (FileIPC.validateEntry (fun _ => .num 7) (fun _ => .num 0) 0 30000 1024
        longEntry).errors := by
  have hl : (1024 : Nat) ≤ (String.mk (List.replicate 1024 'x')).length := by
    simp [String.length]
  have h := long_data_yields_absent_and_too_long_when_fresh (fun _ => .num 7)
    (fun _ => .num 0) 0 30000 longEntry (String.mk (List.replicate 1024 'x'))
    rfl hl
  exact ⟨h.1, h.2 (by decide)⟩

/-- Claim C5, counterexample: after `close` on a fresh handle the `aborted`
flag is set, yet a subsequent `sendData` succeeds and appends the message
to the mailbox file — it does not fail with any closed-handle error. -/
theorem send_after_close_appends :
    (FileIPC.close false ipc0).aborted = true ∧
    FileIPC.sendOnHandle (fun _ => "T") 123 0 "hi" (FileIPC.close false ipc0) =
      .ok ({ fs := { file := some (.entries [FileIPC.mkSentEntry (fun _ => "T") 123 0 "hi"]),
                     mkdirFails := false, readFails := false,
                     unlinkFails := false, writeFails := false },
             messageQueue := [], aborted := true }, .sent) := by
  constructor <;> rfl

/-- Claim C5 as amended: `sendData` contains no check of the `aborted` flag,
so after `close` (with healthy filesystem primitives) a send still
succeeds, writing a fresh mailbox file holding the message. -/
theorem send_after_close_succeeds
    (toIsoF : Int → String) (pidValue nowMs : Int) (d : String)
    (st : FileIPC.IpcState)
    (hm : st.fs.mkdirFails = false) (hw : st.fs.writeFails = false)
    (hu : st.fs.unlinkFails = false) :
    (FileIPC.close false st).aborted = true ∧
    FileIPC.sendOnHandle toIsoF pidValue nowMs d (FileIPC.close false st) =
      .ok ({ FileIPC.close false st with
        fs := { (FileIPC.close false st).fs with
          file := some (.entries [FileIPC.mkSentEntry toIsoF pidValue nowMs d]) } },
        .sent) := by
  constructor
  · simp [FileIPC.close, hu]
  · simp [FileIPC.close, FileIPC.sendOnHandle, FileIPC.sendData, hm, hw, hu]

/-- Witness for the amended claim C5 at a concrete input. -/
theorem send_after_close_succeeds_witness :
    (FileIPC.close false ipc0).aborted = true ∧
    FileIPC.sendOnHandle (fun _ => "S") 1 5 "msg" (FileIPC.close false ipc0) =
      .ok ({ FileIPC.close false ipc0 with
        fs := { (FileIPC.close false ipc0).fs with
          file := some (.entries [FileIPC.mkSentEntry (fun _ => "S") 1 5 "msg"]) } },
        .sent) :=
  send_after_close_succeeds (fun _ => "S") 1 5 "msg" ipc0 rfl rfl rfl

/-- Claim C6, counterexample: `mkdir` is called before, and outside of, the
`try`/`catch` of `sendData`, so a directory-creation failure propagates to
the caller as an exception instead of being reported as a send-failure
outcome. -/
theorem mkdir_failure_crashes_send :
    FileIPC.sendData (fun _ => "T") 1 0 "hello"
      { file := none, mkdirFails := true, readFails := false,
        unlinkFails := false, writeFails := false } = .error () := by
  rfl

/-- Claim C6 as amended: once `mkdir` succeeds, `sendData` never crashes:
every remaining failure is contained.  A parse failure on malformed
existing content and a write failure are both caught by the outer `catch`
and reported as the logged send-failure outcome, the file left
unchanged. -/
theorem send_contains_parse_and_write_failures
    (toIsoF : Int → String) (pidValue nowMs : Int) (d : String)
    (fs : FileIPC.FsState) (hm : fs.mkdirFails = false) :
    (∃ fs2 r, FileIPC.sendData toIsoF pidValue nowMs d fs = .ok (fs2, r)) ∧
    (fs.readFails = false → fs.file = some .malformed →
      FileIPC.sendData toIsoF pidValue nowMs d fs = .ok (fs, .loggedError)) ∧
    (fs.writeFails = true →
      FileIPC.sendData toIsoF pidValue nowMs d fs = .ok (fs, .loggedError)) := by
  unfold FileIPC.sendData
  rw [if_neg (by simp [hm])]
  refine ⟨?_, ?_, ?_⟩
  · rcases hr : fs.readFails with _ | _ <;> simp [hr]
    · rcases hf : fs.file with _ | c
      · rcases hw : fs.writeFails with _ | _ <;> simp [hw]
      · rcases c with es | _ | _ <;>
          rcases hw : fs.writeFails with _ | _ <;> simp [hw]
    · rcases hw : fs.writeFails with _ | _ <;> simp [hw]
  · intro hr hf
    simp [hr, hf]
  · intro hw
    rcases hr : fs.readFails with _ | _ <;> simp [hr, hw]
    rcases hf : fs.file with _ | c
    · simp
    · rcases c with es | _ | _ <;> simp

/-- Witness for the amended claim C6 at a concrete input (a mailbox file
with malformed content). -/
theorem send_contains_parse_and_write_failures_witness :
    (∃ fs2 r, FileIPC.sendData (fun _ => "T") 1 0 "d" fsMal = .ok (fs2, r)) ∧
    (fsMal.readFails = false → fsMal.file = some .malformed →
      FileIPC.sendData (fun _ => "T") 1 0 "d" fsMal = .ok (fsMal, .loggedError)) ∧
    (fsMal.writeFails = true →
      FileIPC.sendData (fun _ => "T") 1 0 "d" fsMal = .ok (fsMal, .loggedError)) :=
  send_contains_parse_and_write_failures (fun _ => "T") 1 0 "d" fsMal rfl

/-- Claim C7: evaluating `extractMessages` on the three file states in
question.  A mailbox file with zero-byte content is NOT treated as zero
entries: the truthy empty `Uint8Array` reaches `JSON.parse("")`, which
throws, and extraction fails with the format error (after deleting the
file).  Malformed JSON likewise fails with the format error, and an absent
file yields the empty list without error. -/
theorem extract_empty_content_is_format_error :
    (FileIPC.extractMessages (fun _ => JsNum.nan) (fun _ => JsNum.nan) 30000 1024 0
        { file := some .emptyContent, mkdirFails := false, readFails := false,
          unlinkFails := false, writeFails := false } =
      (fs0, .error .formatError)) ∧
    (FileIPC.extractMessages (fun _ => JsNum.nan) (fun _ => JsNum.nan) 30000 1024 0
        fs0 = (fs0, .ok [])) ∧
    (FileIPC.extractMessages (fun _ => JsNum.nan) (fun _ => JsNum.nan) 30000 1024 0
        fsMal = (fs0, .error .formatError)) := by
  refine ⟨rfl, rfl, rfl⟩

/-- Claim C8: extraction is destructive.  Whenever the mailbox file exists
and the read and unlink primitives succeed, the file is gone in the
post-extraction state — the unlink happens right after the read, before any
validation, so this holds even when parsing then fails — and a second
extraction performed before any new send returns the empty batch, leaving
the state unchanged. -/
theorem extraction_is_destructive
    (parseIntF dateParseF : String → JsNum) (stale : Int) (maxLen : Nat)
    (nowMs : Int) (fs : FileIPC.FsState) (c : FileIPC.FileContent)
    (hf : fs.file = some c) (hr : fs.readFails = false)
    (hu : fs.unlinkFails = false) :
    (FileIPC.extractMessages parseIntF dateParseF stale maxLen nowMs fs).1.file = none ∧
    FileIPC.extractMessages parseIntF dateParseF stale maxLen nowMs
        (FileIPC.extractMessages parseIntF dateParseF stale maxLen nowMs fs).1 =
      ((FileIPC.extractMessages parseIntF dateParseF stale maxLen nowMs fs).1,
        .ok []) := by
  cases c <;> simp [FileIPC.extractMessages, hf, hr, hu]

/-- A sample raw entry. -/
def sampleEntry : RawEntry :=
  { pid := some "1", sent := some "t", data := .str "hi" }

/-- A fault-free filesystem whose mailbox file holds one well-formed
entry. -/
def fsOne : FileIPC.FsState :=
  { file := some (.entries [sampleEntry]), mkdirFails := false,
    readFails := false, unlinkFails := false, writeFails := false }

/-- Witness for claim C8 at a concrete input (a mailbox file holding one
well-formed entry). -/
theorem extraction_is_destructive_witness :
    (FileIPC.extractMessages (fun _ => JsNum.nan) (fun _ => JsNum.nan) 30000 1024 0
        fsOne).1.file = none ∧
    FileIPC.extractMessages (fun _ => JsNum.nan) (fun _ => JsNum.nan) 30000 1024 0
        (FileIPC.extractMessages (fun _ => JsNum.nan) (fun _ => JsNum.nan) 30000 1024 0
          fsOne).1 =
      ((FileIPC.extractMessages (fun _ => JsNum.nan) (fun _ => JsNum.nan) 30000 1024 0
          fsOne).1, .ok []) :=
  extraction_is_destructive (fun _ => JsNum.nan) (fun _ => JsNum.nan) 30000 1024 0
    fsOne (.entries [sampleEntry]) rfl rfl rfl

/-- On a fault-free filesystem whose mailbox file holds `es`, a sequence of
sends appends its entries in order, leaving everything else unchanged. -/
theorem sendAll_appends (toIsoF : Int → String) (pidValue : Int)
    (sends : List (Int × String)) (fs : FileIPC.FsState) (es : List RawEntry)
    (hm : fs.mkdirFails = false) (hr : fs.readFails = false)
    (hw : fs.writeFails = false) (hf : fs.file = some (.entries es)) :
    FileIPC.sendAll toIsoF pidValue sends fs =
      { fs with file := some (.entries (es ++ sends.map fun td =>
          FileIPC.mkSentEntry toIsoF pidValue td.1 td.2)) } := by
  induction sends generalizing fs es with
  | nil =>
    cases fs
    simp_all [FileIPC.sendAll]
  | cons hd tl ih =>
    have hstep : FileIPC.sendData toIsoF pidValue hd.1 hd.2 fs =
        .ok ({ fs with file := some (.entries
          (es ++ [FileIPC.mkSentEntry toIsoF pidValue hd.1 hd.2])) }, .sent) := by
      simp [FileIPC.sendData, hm, hr, hw, hf]
    calc FileIPC.sendAll toIsoF pidValue (hd :: tl) fs
        = FileIPC.sendAll toIsoF pidValue tl
            { fs with file := some (.entries
              (es ++ [FileIPC.mkSentEntry toIsoF pidValue hd.1 hd.2])) } := by
          simp [FileIPC.sendAll, hstep]
      _ = { fs with file := some (.entries (es ++ (hd :: tl).map fun td =>
            FileIPC.mkSentEntry toIsoF pidValue td.1 td.2)) } := by
          rw [ih { fs with file := some (.entries
              (es ++ [FileIPC.mkSentEntry toIsoF pidValue hd.1 hd.2])) }
            (es ++ [FileIPC.mkSentEntry toIsoF pidValue hd.1 hd.2]) hm hr hw rfl]
          simp

/-- Claim C9: starting from a fault-free filesystem with no mailbox file,
`N ≥ 1` consecutive sends followed by one extraction produce a single
batch of exactly `N` validated messages, the i-th being the validation of
the entry written by the i-th send. -/
theorem sends_extract_in_order
    (parseIntF dateParseF : String → JsNum) (toIsoF : Int → String)
    (pidValue stale : Int) (maxLen : Nat) (nowMs : Int)
    (sends : List (Int × String)) (fs : FileIPC.FsState)
    (hN : 1 ≤ sends.length)
    (hm : fs.mkdirFails = false) (hr : fs.readFails = false)
    (hw : fs.writeFails = false) (hu : fs.unlinkFails = false)
    (hf : fs.file = none) :
    (FileIPC.extractMessages parseIntF dateParseF stale maxLen nowMs
        (FileIPC.sendAll toIsoF pidValue sends fs)).2 =
      .ok (sends.map fun td =>
        FileIPC.validateEntry parseIntF dateParseF nowMs stale maxLen
          (FileIPC.mkSentEntry toIsoF pidValue td.1 td.2)) ∧
    (sends.map fun td =>
        FileIPC.validateEntry parseIntF dateParseF nowMs stale maxLen
          (FileIPC.mkSentEntry toIsoF pidValue td.1 td.2)).length = sends.length := by
  refine ⟨?_, by simp⟩
  cases sends with
  | nil => exact absurd hN (by simp)
  | cons hd tl =>
    have hstep : FileIPC.sendData toIsoF pidValue hd.1 hd.2 fs =
        .ok ({ fs with file := some (.entries
          [FileIPC.mkSentEntry toIsoF pidValue hd.1 hd.2]) }, .sent) := by
      simp [FileIPC.sendData, hm, hr, hw, hf]
    have hall : FileIPC.sendAll toIsoF pidValue (hd :: tl) fs =
        { fs with file := some (.entries
          ([FileIPC.mkSentEntry toIsoF pidValue hd.1 hd.2] ++ tl.map fun td =>
            FileIPC.mkSentEntry toIsoF pidValue td.1 td.2)) } := by
      rw [show FileIPC.sendAll toIsoF pidValue (hd :: tl) fs =
          FileIPC.sendAll toIsoF pidValue tl
            { fs with file := some (.entries
              [FileIPC.mkSentEntry toIsoF pidValue hd.1 hd.2]) } by
        simp [FileIPC.sendAll, hstep]]
      exact sendAll_appends toIsoF pidValue tl _ _ hm hr hw rfl
    rw [hall]
    simp [FileIPC.extractMessages, hr, hu]

/-- Witness for claim C9 at a concrete input: two sends, then one
extraction. -/
theorem sends_extract_in_order_witness :
    (FileIPC.extractMessages (fun _ => JsNum.num 9) (fun _ => JsNum.num 0) 30000 1024 0
        (FileIPC.sendAll (fun _ => "T") 9 [(0, "a"), (1, "b")] fs0)).2 =
      .ok ([(0, "a"), (1, "b")].map fun td =>
        FileIPC.validateEntry (fun _ => JsNum.num 9) (fun _ => JsNum.num 0) 0 30000 1024
          (FileIPC.mkSentEntry (fun _ => "T") 9 td.1 td.2)) ∧
    ([(0, "a"), (1, "b")].map fun td =>
        FileIPC.validateEntry (fun _ => JsNum.num 9) (fun _ => JsNum.num 0) 0 30000 1024
          (FileIPC.mkSentEntry (fun _ => "T") 9 td.1 td.2)).length =
      ([(0, "a"), (1, "b")] : List (Int × String)).length :=
  sends_extract_in_order (fun _ => JsNum.num 9) (fun _ => JsNum.num 0) (fun _ => "T")
    9 30000 1024 0 [(0, "a"), (1, "b")] fs0 (by decide) rfl rfl rfl rfl rfl

/-- Every batch in a queue reachable through the guarded watcher pushes and
the consumer shifts is non-empty. -/
theorem queueReachable_nonempty {q : List (List IpcValidatedMessage)}
    (h : FileIPC.QueueReachable q) : ∀ b ∈ q, 0 < b.length := by
  induction h with
  | init => intro b hb; simp at hb
  | push q msgs _ ih =>
    intro b hb
    unfold FileIPC.pushIfNonEmpty at hb
    by_cases hm : msgs.length > 0
    · rw [if_pos hm] at hb
      rcases List.mem_append.mp hb with h1 | h2
      · exact ih b h1
      · simp only [List.mem_singleton] at h2
        exact h2 ▸ hm
    · rw [if_neg hm] at hb
      exact ih b hb
  | shift b q _ ih =>
    intro x hx
    exact ih x (List.mem_cons_of_mem _ hx)

/-- Claim C10: whenever the `receiveData` loop yields a batch from a queue
reachable from the initially-empty `messageQueue` through the guarded
watcher pushes (which enqueue only non-empty batches) and consumer shifts,
that batch is non-empty. -/
theorem yielded_batches_nonempty (st : FileIPC.IpcState)
    (msgs : List IpcValidatedMessage) (st2 : FileIPC.IpcState)
    (hq : FileIPC.QueueReachable st.messageQueue)
    (hstep : FileIPC.receiveStep st = (.yielded msgs, st2)) :
    0 < msgs.length := by
  unfold FileIPC.receiveStep at hstep
  rcases ha : st.aborted with _ | _
  · rw [ha] at hstep
    simp only [Bool.false_eq_true, if_false] at hstep
    cases hqm : st.messageQueue with
    | nil => rw [hqm] at hstep; cases hstep
    | cons b rest =>
      rw [hqm] at hstep
      have hb : b = msgs := by
        have := congrArg Prod.fst hstep
        simpa using this
      exact hb ▸ queueReachable_nonempty hq b (hqm ▸ List.mem_cons_self b rest)
  · rw [ha] at hstep
    simp at hstep

/-- Witness for claim C10 at a concrete input: a queue holding one
singleton batch, reached by one guarded push. -/
theorem yielded_batches_nonempty_witness :
    FileIPC.QueueReachable [[sampleMsg]] ∧ 0 < [sampleMsg].length :=
  ⟨show FileIPC.QueueReachable [[sampleMsg]] from
      FileIPC.QueueReachable.push [] [sampleMsg] FileIPC.QueueReachable.init,
   yielded_batches_nonempty
    { fs := fs0, messageQueue := [[sampleMsg]], aborted := false } [sampleMsg]
    { fs := fs0, messageQueue := [], aborted := false }
    (show FileIPC.QueueReachable [[sampleMsg]] from
      FileIPC.QueueReachable.push [] [sampleMsg] FileIPC.QueueReachable.init)
    rfl⟩
